import Mathlib

set_option maxRecDepth 4000

/-!
# VoteEd (Niha2730/voting) — ballot ledger, eligibility, tally and completion view

Shallow embedding of the vote-integrity and result-aggregation slice of the
repository:

* data model from `shared/schema.ts` (tables `users`, `clubs`, `positions`,
  `elections`, `candidates`, `votes`);
* storage operations from `server/storage.ts` (`DatabaseStorage`):
  `getPositionsByClub`, `getActiveElections`, `getCandidatesByElection`,
  `hasUserVoted`, `castVote`, `getElectionResults`;
* the `POST /api/vote` handler from `server/routes.ts` (`submitVote` below);
* the per-election voting-status helper `getUserVotingStatus` from the
  client home page, together with the `userVotes` record built by the
  `GET /api/elections/active` handler.

The relational store is modeled as explicit lists of rows (`DB`).  Row ids
are strings (uuids in the source); vote ids are allocated from a counter to
model `gen_random_uuid()` freshness.  Timestamps are integers.  Stateful
operations are embedded in state-passing style `DB → α × DB`; a SQL insert
that would violate a foreign-key constraint of `shared/schema.ts` throws in
the source and is modeled as returning `none` with the state unchanged.

SQL `ORDER BY` guarantees only that the output is sorted by the given keys;
the order of rows that compare equal is unspecified.  We model a query's
result set as the rows in table-scan (storage) order and `ORDER BY` as a
stable insertion sort over that order, which is one admissible behavior:
theorems about ordering rely only on the sortedness and permutation facts,
while ties are exhibited in storage order, which need not coincide with
creation order.
-/

namespace VoteEd

/-- Row of the `users` table (`shared/schema.ts`); free-text columns not
consulted by the modeled operations (`password`) are omitted. -/
structure User where
  id : String
  username : String
  email : String
  firstName : String
  lastName : String
  role : String
  isVerified : Bool
  createdAt : Int
deriving DecidableEq, Repr

/-- Row of the `clubs` table. -/
structure Club where
  id : String
  name : String
  createdAt : Int
deriving DecidableEq, Repr

/-- Row of the `positions` table. -/
structure Position where
  id : String
  name : String
  clubId : String
  createdAt : Int
deriving DecidableEq, Repr

/-- Row of the `elections` table. -/
structure Election where
  id : String
  clubId : String
  title : String
  startDate : Int
  endDate : Int
  isActive : Bool
  createdAt : Int
deriving DecidableEq, Repr

/-- Row of the `candidates` table. -/
structure Candidate where
  id : String
  userId : String
  electionId : String
  positionId : String
  isApproved : Bool
  createdAt : Int
deriving DecidableEq, Repr

/-- Row of the `votes` table: one immutable ballot.  `id` is a model
surrogate for the `gen_random_uuid()` primary key. -/
structure Vote where
  id : Nat
  voterId : String
  candidateId : String
  electionId : String
  positionId : String
  createdAt : Int
deriving DecidableEq, Repr

/-- The relational store: one list of rows per table, in storage order,
plus the fresh-id counter for `votes`. -/
structure DB where
  users : List User
  clubs : List Club
  positions : List Position
  elections : List Election
  candidates : List Candidate
  votes : List Vote
  nextVoteId : Nat
deriving DecidableEq, Repr

/-- `DatabaseStorage.getUser`: first row of `SELECT * FROM users WHERE id = …`
(also the unique-key lookup behind the inner joins on `users.id`). -/
def getUser (db : DB) (id : String) : Option User :=
  db.users.find? (fun u => u.id == id)

/-- Unique-key lookup behind the inner joins on `positions.id`. -/
def findPosition (db : DB) (id : String) : Option Position :=
  db.positions.find? (fun p => p.id == id)

/-- Unique-key lookup behind the inner join on `clubs.id` in
`getActiveElections`. -/
def findClub (db : DB) (id : String) : Option Club :=
  db.clubs.find? (fun c => c.id == id)

/-- `DatabaseStorage.getPositionsByClub`: `SELECT * FROM positions WHERE
club_id = …`. -/
def getPositionsByClub (db : DB) (clubId : String) : List Position :=
  db.positions.filter (fun p => p.clubId == clubId)

/-- `DatabaseStorage.hasUserVoted` (storage lines 202–213): selects
`count(*)` over `votes` filtered by voter, election and position, and
returns `count > 0`.  A read-only query: the state comes back unchanged. -/
def hasUserVoted (db : DB) (userId electionId positionId : String) : Bool × DB :=
  let c := db.votes.countP
    (fun v => v.voterId == userId && v.electionId == electionId && v.positionId == positionId)
  (decide (0 < c), db)

/-- Payload accepted by `DatabaseStorage.castVote` (`insertVoteSchema`:
a `votes` row minus the generated `id` and `createdAt`). -/
structure InsertVote where
  voterId : String
  candidateId : String
  electionId : String
  positionId : String
deriving DecidableEq, Repr

/-- The foreign-key constraints of the `votes` table: the inserted row's
`voter_id`, `candidate_id`, `election_id` and `position_id` must each
reference an existing row. -/
def fkOk (db : DB) (iv : InsertVote) : Bool :=
  db.users.any (fun u => u.id == iv.voterId) &&
  db.candidates.any (fun c => c.id == iv.candidateId) &&
  db.elections.any (fun e => e.id == iv.electionId) &&
  db.positions.any (fun p => p.id == iv.positionId)

/-- `DatabaseStorage.castVote` (storage lines 215–221): a bare
`INSERT INTO votes … RETURNING` with no validation of its own.  The
`votes` table declares NOT NULL foreign keys on `voter_id`, `candidate_id`,
`election_id` and `position_id` (`shared/schema.ts`), so an insert naming a
missing row throws (modeled as `none`, state unchanged); otherwise the row
is appended with generated `id` and `createdAt = now()`. -/
def castVote (db : DB) (iv : InsertVote) (now : Int) : Option Vote × DB :=
  if fkOk db iv then
    let v : Vote := { id := db.nextVoteId, voterId := iv.voterId,
                      candidateId := iv.candidateId, electionId := iv.electionId,
                      positionId := iv.positionId, createdAt := now }
    (some v, { db with votes := db.votes ++ [v], nextVoteId := db.nextVoteId + 1 })
  else (none, db)

/-- Body of `POST /api/vote`; the handler overrides `voterId` with the
session user's id before validation. -/
structure VoteBody where
  candidateId : String
  electionId : String
  positionId : String
deriving DecidableEq, Repr

/-- Outcome of the `POST /api/vote` handler for an authenticated user:
`created v` is the 201 response carrying the new ballot, `alreadyVoted` the
400 "You have already voted for this position" response, `serverError` the
500 "Failed to submit vote" response produced when `castVote` throws. -/
inductive VoteResult where
  | created (v : Vote)
  | alreadyVoted
  | serverError
deriving DecidableEq, Repr

/-- The `POST /api/vote` handler (`server/routes.ts` lines 60–88) for an
authenticated session user: build the insert payload with the session
user's id, reject with 400 if `hasUserVoted` already holds for the
(voter, election, position) triple, otherwise insert via `castVote`.  The
handler performs no other validation. -/
def submitVote (db : DB) (userId : String) (b : VoteBody) (now : Int) : VoteResult × DB :=
  let iv : InsertVote :=
    { voterId := userId, candidateId := b.candidateId,
      electionId := b.electionId, positionId := b.positionId }
  let hv := hasUserVoted db iv.voterId iv.electionId iv.positionId
  if hv.1 then (.alreadyVoted, hv.2)
  else
    match castVote hv.2 iv now with
    | (some v, db2) => (.created v, db2)
    | (none, db2) => (.serverError, db2)

/-- Output row of `DatabaseStorage.getCandidatesByElection`: a candidate
inner-joined with its user and position rows. -/
structure CandidateRow where
  candidate : Candidate
  user : User
  position : Position
deriving DecidableEq, Repr

/-- `DatabaseStorage.getCandidatesByElection` (storage lines 173–192):
`SELECT … FROM candidates INNER JOIN users INNER JOIN positions WHERE
election_id = … AND is_approved = true`.  The joins are on the primary
keys of `users` and `positions`, so each candidate contributes at most one
row; no `ORDER BY`, so rows come out in storage order. -/
def getCandidatesByElection (db : DB) (electionId : String) : List CandidateRow :=
  db.candidates.filterMap (fun c =>
    if c.electionId == electionId && c.isApproved then
      match getUser db c.userId, findPosition db c.positionId with
      | some u, some p => some { candidate := c, user := u, position := p }
      | _, _ => none
    else none)

/-- Output row of `DatabaseStorage.getElectionResults`: a candidate joined
with its user and position plus the ballot count from the left join. -/
structure ResultRow where
  candidate : Candidate
  user : User
  position : Position
  voteCount : Nat
deriving DecidableEq, Repr

/-- The result set of `getElectionResults` before `ORDER BY`: candidates of
the election (no approval filter), inner-joined with users and positions,
left-joined against `votes` grouped by candidate, so `voteCount` counts
the ballots naming the candidate (0 when the left join finds none). -/
def resultRows (db : DB) (electionId : String) : List ResultRow :=
  db.candidates.filterMap (fun c =>
    if c.electionId == electionId then
      match getUser db c.userId, findPosition db c.positionId with
      | some u, some p =>
        some { candidate := c, user := u, position := p,
               voteCount := db.votes.countP (fun v => v.candidateId == c.id) }
      | _, _ => none
    else none)

/-- The `ORDER BY positions.name, desc(count(votes.id))` key of
`getElectionResults`: ascending position name, then descending vote
count.  This is the entire ordering the query specifies — there is no
further tie-break key. -/
def resultOrder (r1 r2 : ResultRow) : Prop :=
  r1.position.name < r2.position.name ∨
    (r1.position.name = r2.position.name ∧ r2.voteCount ≤ r1.voteCount)

instance : DecidableRel resultOrder := fun r1 r2 =>
  inferInstanceAs (Decidable (_ ∨ _))

instance : IsTotal ResultRow resultOrder where
  total a b := by
    rcases lt_trichotomy a.position.name b.position.name with h | h | h
    · exact Or.inl (Or.inl h)
    · rcases le_total b.voteCount a.voteCount with h2 | h2
      · exact Or.inl (Or.inr ⟨h, h2⟩)
      · exact Or.inr (Or.inr ⟨h.symm, h2⟩)
    · exact Or.inr (Or.inl h)

instance : IsTrans ResultRow resultOrder where
  trans a b c hab hbc := by
    rcases hab with h1 | ⟨h1, h1c⟩ <;> rcases hbc with h2 | ⟨h2, h2c⟩
    · exact Or.inl (h1.trans h2)
    · exact Or.inl (h2 ▸ h1)
    · exact Or.inl (h1 ▸ h2)
    · exact Or.inr ⟨h1.trans h2, h2c.trans h1c⟩

/-- `DatabaseStorage.getElectionResults` (storage lines 232–247): the
grouped join `resultRows` ordered by `(positions.name asc, voteCount
desc)`.  Rows tied on both keys are left in storage order (SQL specifies
no order for them); the sort is modeled as a stable insertion sort. -/
def getElectionResults (db : DB) (electionId : String) : List ResultRow :=
  List.insertionSort resultOrder (resultRows db electionId)

/-- Output row of `DatabaseStorage.getActiveElections`: an election with
its club and the club's positions. -/
structure ActiveElectionRow where
  election : Election
  club : Club
  positions : List Position
deriving DecidableEq, Repr

/-- The result set of the query inside `getActiveElections` before
`ORDER BY`: elections with `is_active = true AND end_date > now()`,
inner-joined with their club.  Note the filter never consults
`start_date`. -/
def activeElectionPairs (db : DB) (now : Int) : List (Election × Club) :=
  db.elections.filterMap (fun e =>
    if e.isActive && decide (now < e.endDate) then
      match findClub db e.clubId with
      | some c => some (e, c)
      | none => none
    else none)

/-- The `ORDER BY elections.endDate` key of `getActiveElections`. -/
def electionOrder (p q : Election × Club) : Prop :=
  p.1.endDate ≤ q.1.endDate

instance : DecidableRel electionOrder := fun p q =>
  inferInstanceAs (Decidable (_ ≤ _))

instance : IsTotal (Election × Club) electionOrder where
  total a b := le_total a.1.endDate b.1.endDate

instance : IsTrans (Election × Club) electionOrder where
  trans _ _ _ hab hbc := le_trans hab hbc

/-- `DatabaseStorage.getActiveElections` (storage lines 133–158): active
elections with club, ordered by end date, each enriched with
`getPositionsByClub(club.id)`. -/
def getActiveElections (db : DB) (now : Int) : List ActiveElectionRow :=
  (List.insertionSort electionOrder (activeElectionPairs db now)).map
    (fun ec => { election := ec.1, club := ec.2,
                 positions := getPositionsByClub db ec.2.id })

/-- JavaScript record assignment `r[k] = v` on a string-keyed object,
modeled on an insertion-ordered association list: overwrite the existing
binding if the key is present, otherwise append. -/
def recordSet (r : List (String × Bool)) (k : String) (v : Bool) : List (String × Bool) :=
  if r.any (fun kv => kv.1 == k) then
    r.map (fun kv => if kv.1 == k then (k, v) else kv)
  else r ++ [(k, v)]

/-- The `userVotes` record built by the `GET /api/elections/active`
handler (`server/routes.ts` lines 30–38) for an authenticated user: for
each position of the election (in order) set
`userVotes[position.id] = hasUserVoted(user.id, election.id, position.id)`. -/
def buildUserVotes (db : DB) (userId electionId : String) (ps : List Position) :
    List (String × Bool) :=
  ps.foldl (fun acc p => recordSet acc p.id (hasUserVoted db userId electionId p.id).1) []

/-- `getUserVotingStatus` from the client home page (part_001 lines
105–113), for an election row whose `userVotes` record is present
(authenticated case): compare the number of `true` values of `userVotes`
(`Object.values(…).filter(Boolean).length`) with the number of positions. -/
def getUserVotingStatus (ps : List Position) (userVotes : List (String × Bool)) : String :=
  let totalPositions := ps.length
  let votedPositions := ((userVotes.map (fun kv => kv.2)).filter (fun b => b)).length
  if votedPositions == totalPositions then "Completed"
  else if votedPositions > 0 then "Partial"
  else "Not Voted"

/-- The spec's set `V` (§4.4): the positions of `ps` for which
`hasVoted(voterId, electionId, p)` holds. -/
def votedSubset (db : DB) (userId electionId : String) (ps : List Position) : List Position :=
  ps.filter (fun p => (hasUserVoted db userId electionId p.id).1)

/-- End-to-end completion status for one election of club `clubId`, as the
client computes it from the route's annotation: `getUserVotingStatus`
applied to the election's positions (`getPositionsByClub`) and the
`userVotes` record the route builds over them. -/
def statusForClub (db : DB) (userId electionId clubId : String) : String :=
  getUserVotingStatus (getPositionsByClub db clubId)
    (buildUserVotes db userId electionId (getPositionsByClub db clubId))

/-- The ballot `submitVote` appends on the successful path. -/
def newVote (db : DB) (userId : String) (b : VoteBody) (now : Int) : Vote :=
  { id := db.nextVoteId, voterId := userId, candidateId := b.candidateId,
    electionId := b.electionId, positionId := b.positionId, createdAt := now }

/-! ## Concrete fixtures used by witnesses and counterexamples -/

/-- Fixture voter. -/
def uAlice : User := ⟨"u1", "alice", "alice@college.edu", "Alice", "Lee", "student", true, 0⟩

/-- Fixture user standing for President and Secretary. -/
def uBob : User := ⟨"u2", "bob", "bob@college.edu", "Bob", "Kim", "student", true, 0⟩

/-- Fixture user standing (unapproved) for President. -/
def uCara : User := ⟨"u3", "cara", "cara@college.edu", "Cara", "Roy", "student", true, 0⟩

/-- Fixture club. -/
def clTech : Club := ⟨"cl1", "Technical Club", 0⟩

/-- Fixture position President of `clTech`. -/
def pPresident : Position := ⟨"p1", "President", "cl1", 1⟩

/-- Fixture position Secretary of `clTech`. -/
def pSecretary : Position := ⟨"p2", "Secretary", "cl1", 2⟩

/-- Fixture live election of `clTech` (active, ends at time 1000). -/
def eMain : Election := ⟨"e1", "cl1", "Tech Club Election", 0, 1000, true, 0⟩

/-- Approved candidate (Bob) for President in `eMain`. -/
def cPresBob : Candidate := ⟨"c1", "u2", "e1", "p1", true, 1⟩

/-- Unapproved candidate (Cara) for President in `eMain`. -/
def cPresCara : Candidate := ⟨"c2", "u3", "e1", "p1", false, 2⟩

/-- Approved candidate (Bob) for Secretary in `eMain`. -/
def cSecBob : Candidate := ⟨"c3", "u2", "e1", "p2", true, 3⟩

/-- Main fixture store: one live election over two positions, three
candidates, no ballots yet. -/
def dbFix : DB :=
  { users := [uAlice, uBob, uCara], clubs := [clTech],
    positions := [pPresident, pSecretary], elections := [eMain],
    candidates := [cPresBob, cPresCara, cSecBob], votes := [], nextVoteId := 0 }

/-- Fixture live election whose end date (50) has already passed at the
submission time (100) used in `vote_on_closed_election_accepted`. -/
def eClosed : Election := ⟨"e2", "cl1", "Closed Election", 0, 50, true, 0⟩

/-- Approved candidate for President in the closed election `eClosed`. -/
def cClosedBob : Candidate := ⟨"c4", "u2", "e2", "p1", true, 1⟩

/-- Store whose only election is `eClosed`. -/
def dbClosed : DB :=
  { users := [uAlice, uBob], clubs := [clTech], positions := [pPresident],
    elections := [eClosed], candidates := [cClosedBob], votes := [], nextVoteId := 0 }

/-- Candidates tied at zero votes for President in `eMain`: `cTieFirst`
was created first (`createdAt` 1)… -/
def cTieFirst : Candidate := ⟨"cA", "u2", "e1", "p1", true, 1⟩

/-- Candidate tied with `cTieFirst`, created second (`createdAt` 2). -/
def cTieSecond : Candidate := ⟨"cB", "u3", "e1", "p1", true, 2⟩

/-- Store in which the two tied candidates sit in storage order
`[cTieSecond, cTieFirst]` — the reverse of their creation order, which a
relational table is free to do. -/
def dbTie : DB :=
  { users := [uBob, uCara], clubs := [clTech], positions := [pPresident],
    elections := [eMain], candidates := [cTieSecond, cTieFirst],
    votes := [], nextVoteId := 0 }

/-- Fixture election whose `startDate` (500) is still in the future at
query time 100, while it is active and ends later (1000). -/
def eFuture : Election := ⟨"e3", "cl1", "Upcoming Election", 500, 1000, true, 0⟩

/-- Approved candidate for President in the not-yet-started election. -/
def cFutureBob : Candidate := ⟨"c5", "u2", "e3", "p1", true, 1⟩

/-- Store whose only election has not started yet. -/
def dbFuture : DB :=
  { users := [uAlice, uBob], clubs := [clTech], positions := [pPresident],
    elections := [eFuture], candidates := [cFutureBob], votes := [], nextVoteId := 0 }

/-- `dbFix` after Alice voted for President only. -/
def dbVotedPres : DB :=
  { dbFix with votes := [⟨0, "u1", "c1", "e1", "p1", 5⟩], nextVoteId := 1 }

/-- `dbFix` after Alice voted for both President and Secretary. -/
def dbVotedBoth : DB :=
  { dbFix with votes := [⟨0, "u1", "c1", "e1", "p1", 5⟩, ⟨1, "u1", "c3", "e1", "p2", 6⟩],
               nextVoteId := 2 }

/-! ## Reachability by vote submissions, and the uniqueness invariant -/

/-- States reachable from any ballot-free store by a sequence of
`POST /api/vote` submissions. -/
inductive Reachable : DB → Prop where
  | init (db : DB) (h : db.votes = []) : Reachable db
  | step (db : DB) (userId : String) (b : VoteBody) (now : Int)
      (h : Reachable db) : Reachable (submitVote db userId b now).2

/-- The ballot-uniqueness invariant (§3 of the spec): no two distinct
stored ballots agree on voter, election and position. -/
def UniqueTriples (db : DB) : Prop :=
  ∀ v1 ∈ db.votes, ∀ v2 ∈ db.votes,
    v1.voterId = v2.voterId → v1.electionId = v2.electionId →
    v1.positionId = v2.positionId → v1 = v2

/-- `hasUserVoted` answers `true` exactly when a matching ballot is stored. -/
lemma hasUserVoted_true_iff (db : DB) (userId electionId positionId : String) :
    (hasUserVoted db userId electionId positionId).1 = true ↔
      ∃ v ∈ db.votes, v.voterId = userId ∧ v.electionId = electionId ∧
        v.positionId = positionId := by
  simp [hasUserVoted, List.countP_pos_iff, Bool.and_eq_true, beq_iff_eq, and_assoc]

/-- Exhaustive case analysis of one `POST /api/vote` submission: either the
duplicate check fires (400, store untouched), or the insert throws on a
foreign key (500, store untouched), or the triple is fresh and the new
ballot is appended (201). -/
lemma submitVote_eq (db : DB) (userId : String) (b : VoteBody) (now : Int) :
    ((hasUserVoted db userId b.electionId b.positionId).1 = true ∧
      submitVote db userId b now = (VoteResult.alreadyVoted, db)) ∨
    ((hasUserVoted db userId b.electionId b.positionId).1 = false ∧
      fkOk db ⟨userId, b.candidateId, b.electionId, b.positionId⟩ = false ∧
      submitVote db userId b now = (VoteResult.serverError, db)) ∨
    ((hasUserVoted db userId b.electionId b.positionId).1 = false ∧
      fkOk db ⟨userId, b.candidateId, b.electionId, b.positionId⟩ = true ∧
      submitVote db userId b now = (VoteResult.created (newVote db userId b now),
        { db with votes := db.votes ++ [newVote db userId b now],
                  nextVoteId := db.nextVoteId + 1 })) := by
  by_cases hv : (hasUserVoted db userId b.electionId b.positionId).1 = true
  · refine Or.inl ⟨hv, ?_⟩
    unfold submitVote
    dsimp only
    rw [if_pos hv]
    rfl
  · have hv' : (hasUserVoted db userId b.electionId b.positionId).1 = false :=
      Bool.of_not_eq_true hv
    by_cases hfk : fkOk db ⟨userId, b.candidateId, b.electionId, b.positionId⟩ = true
    · refine Or.inr (Or.inr ⟨hv', hfk, ?_⟩)
      unfold submitVote
      dsimp only
      rw [if_neg hv]
      unfold castVote hasUserVoted
      dsimp only
      rw [if_pos hfk]
      rfl
    · refine Or.inr (Or.inl ⟨hv', Bool.of_not_eq_true hfk, ?_⟩)
      unfold submitVote
      dsimp only
      rw [if_neg hv]
      unfold castVote hasUserVoted
      dsimp only
      rw [if_neg hfk]

/-- A submission whose triple is already recorded is rejected with the 400
response and leaves the store untouched. -/
lemma submitVote_of_hasVoted (db : DB) (userId : String) (b : VoteBody) (now : Int)
    (h : (hasUserVoted db userId b.electionId b.positionId).1 = true) :
    submitVote db userId b now = (VoteResult.alreadyVoted, db) := by
  rcases submitVote_eq db userId b now with ⟨_, he⟩ | ⟨hf, _, _⟩ | ⟨hf, _, _⟩
  · exact he
  · exact absurd h (by simp [hf])
  · exact absurd h (by simp [hf])

/-- One `POST /api/vote` submission preserves the uniqueness invariant. -/
lemma uniqueTriples_submitVote (db : DB) (h : UniqueTriples db)
    (userId : String) (b : VoteBody) (now : Int) :
    UniqueTriples (submitVote db userId b now).2 := by
  rcases submitVote_eq db userId b now with ⟨_, he⟩ | ⟨_, _, he⟩ | ⟨hf, _, he⟩
  · rw [he]; exact h
  · rw [he]; exact h
  · have hnone : ∀ v ∈ db.votes,
        ¬(v.voterId = userId ∧ v.electionId = b.electionId ∧ v.positionId = b.positionId) := by
      intro v hvmem hcon
      have := (hasUserVoted_true_iff db userId b.electionId b.positionId).mpr
        ⟨v, hvmem, hcon⟩
      rw [hf] at this
      exact Bool.false_ne_true this
    rw [he]
    intro v1 h1 v2 h2 hva hvb hvc
    simp only [List.mem_append, List.mem_singleton] at h1 h2
    rcases h1 with h1 | h1 <;> rcases h2 with h2 | h2
    · exact h v1 h1 v2 h2 hva hvb hvc
    · subst h2
      exact absurd ⟨hva, hvb, hvc⟩ (hnone v1 h1)
    · subst h1
      exact absurd ⟨hva.symm, hvb.symm, hvc.symm⟩ (hnone v2 h2)
    · rw [h1, h2]

/-- C1: in every state reachable by any sequence of vote-submission
operations, no voter holds two distinct ballots for the same
(election, position) pair — all stored ballots agreeing on voter, election
and position are equal — and a submission whose (voter, election,
position) triple is already recorded fails with the duplicate-vote
rejection and appends no ballot. -/
theorem submitVote_uniqueness_invariant (db : DB) (h : Reachable db) :
    UniqueTriples db ∧
    ∀ (userId : String) (b : VoteBody) (now : Int),
      (∃ v ∈ db.votes, v.voterId = userId ∧ v.electionId = b.electionId ∧
        v.positionId = b.positionId) →
      submitVote db userId b now = (VoteResult.alreadyVoted, db) := by
  constructor
  · induction h with
    | init db h0 =>
      intro v1 h1
      rw [h0] at h1
      exact absurd h1 (List.not_mem_nil v1)
    | step db userId b now h ih =>
      exact uniqueTriples_submitVote db ih userId b now
  · intro userId b now hex
    exact submitVote_of_hasVoted db userId b now
      ((hasUserVoted_true_iff db userId b.electionId b.positionId).mpr hex)

/-- Witness for C1: after Alice's vote for candidate `c1` is recorded, a
second submission of the same (voter, election, position) triple is
rejected with the 400 duplicate response and the store is unchanged. -/
theorem submitVote_uniqueness_invariant_witness :
    submitVote (submitVote dbFix "u1" ⟨"c1", "e1", "p1"⟩ 5).2 "u1" ⟨"c1", "e1", "p1"⟩ 6 =
      (VoteResult.alreadyVoted, (submitVote dbFix "u1" ⟨"c1", "e1", "p1"⟩ 5).2) :=
  (submitVote_uniqueness_invariant _
      (Reachable.step dbFix "u1" ⟨"c1", "e1", "p1"⟩ 5 (Reachable.init dbFix rfl))).2
    "u1" ⟨"c1", "e1", "p1"⟩ 6 (by decide)

/-- C6: the eligibility query `hasUserVoted` answers `true` exactly when at
least one stored ballot matches voter, election and position, and it has
no side effects: the store comes back unchanged. -/
theorem hasUserVoted_correct (db : DB) (userId electionId positionId : String) :
    ((hasUserVoted db userId electionId positionId).1 = true ↔
      ∃ v ∈ db.votes, v.voterId = userId ∧ v.electionId = electionId ∧
        v.positionId = positionId) ∧
    (hasUserVoted db userId electionId positionId).2 = db :=
  ⟨hasUserVoted_true_iff db userId electionId positionId, rfl⟩

/-- C2 (failing input): the `POST /api/vote` handler never consults the
referenced election, so a submission at time 100 against `eClosed`
(`endDate = 50`, hence not live) with a valid approved candidate and an
unused triple is accepted: the handler answers 201 and appends the ballot
instead of failing with `ElectionClosed`. -/
theorem vote_on_closed_election_accepted :
    eClosed.isActive = true ∧ eClosed.endDate < 100 ∧ cClosedBob.isApproved = true ∧
    (submitVote dbClosed "u1" ⟨"c4", "e2", "p1"⟩ 100).1 =
      VoteResult.created ⟨0, "u1", "c4", "e2", "p1", 100⟩ ∧
    (submitVote dbClosed "u1" ⟨"c4", "e2", "p1"⟩ 100).2.votes =
      [⟨0, "u1", "c4", "e2", "p1", 100⟩] := by decide

/-- C3 (failing input): the `POST /api/vote` handler never validates the
referenced candidate, so a submission naming the unapproved candidate
`c2` (approval flag false) in the live election `eMain`, with an unused
triple, is accepted: the handler answers 201 and appends the ballot
instead of failing with `InvalidCandidate`. -/
theorem vote_for_unapproved_candidate_accepted :
    cPresCara.isApproved = false ∧ eMain.isActive = true ∧ (100 : Int) < eMain.endDate ∧
    (submitVote dbFix "u1" ⟨"c2", "e1", "p1"⟩ 100).1 =
      VoteResult.created ⟨0, "u1", "c2", "e1", "p1", 100⟩ ∧
    (submitVote dbFix "u1" ⟨"c2", "e1", "p1"⟩ 100).2.votes =
      [⟨0, "u1", "c2", "e1", "p1", 100⟩] := by decide

/-- Characterization of the rows of the grouped tally join: a row is
produced exactly for each candidate of the election whose user and
position rows resolve, carrying that candidate's ballot count. -/
lemma mem_resultRows (db : DB) (e : String) (r : ResultRow) :
    r ∈ resultRows db e ↔
      r.candidate ∈ db.candidates ∧ r.candidate.electionId = e ∧
      getUser db r.candidate.userId = some r.user ∧
      findPosition db r.candidate.positionId = some r.position ∧
      r.voteCount = db.votes.countP (fun v => v.candidateId == r.candidate.id) := by
  unfold resultRows
  rw [List.mem_filterMap]
  constructor
  · rintro ⟨c, hc, hfc⟩
    by_cases he : (c.electionId == e) = true
    · rw [if_pos he] at hfc
      cases hu : getUser db c.userId with
      | none => rw [hu] at hfc; exact absurd hfc (by simp)
      | some u =>
        cases hp : findPosition db c.positionId with
        | none => rw [hu, hp] at hfc; exact absurd hfc (by simp)
        | some p =>
          rw [hu, hp] at hfc
          obtain rfl := Option.some.inj hfc
          exact ⟨hc, beq_iff_eq.mp he, hu, hp, rfl⟩
    · rw [if_neg he] at hfc
      exact absurd hfc (by simp)
  · rintro ⟨hc, he, hu, hp, hcount⟩
    refine ⟨r.candidate, hc, ?_⟩
    rw [if_pos (beq_iff_eq.mpr he), hu, hp, ← hcount]

/-- The tally output is a permutation of the grouped join rows. -/
lemma getElectionResults_perm (db : DB) (e : String) :
    (getElectionResults db e).Perm (resultRows db e) :=
  List.perm_insertionSort resultOrder (resultRows db e)

/-- Characterization of the rows of the voter-facing roster query: one row
per approved candidate of the election whose user and position resolve. -/
lemma mem_getCandidatesByElection (db : DB) (e : String) (row : CandidateRow) :
    row ∈ getCandidatesByElection db e ↔
      row.candidate ∈ db.candidates ∧ row.candidate.electionId = e ∧
      row.candidate.isApproved = true ∧
      getUser db row.candidate.userId = some row.user ∧
      findPosition db row.candidate.positionId = some row.position := by
  unfold getCandidatesByElection
  rw [List.mem_filterMap]
  constructor
  · rintro ⟨c, hc, hfc⟩
    by_cases he : (c.electionId == e && c.isApproved) = true
    · rw [if_pos he] at hfc
      rw [Bool.and_eq_true] at he
      obtain ⟨he1, he2⟩ := he
      cases hu : getUser db c.userId with
      | none => rw [hu] at hfc; exact absurd hfc (by simp)
      | some u =>
        cases hp : findPosition db c.positionId with
        | none => rw [hu, hp] at hfc; exact absurd hfc (by simp)
        | some p =>
          rw [hu, hp] at hfc
          obtain rfl := Option.some.inj hfc
          exact ⟨hc, beq_iff_eq.mp he1, he2, hu, hp⟩
    · rw [if_neg he] at hfc
      exact absurd hfc (by simp)
  · rintro ⟨hc, he, ha, hu, hp⟩
    refine ⟨row.candidate, hc, ?_⟩
    have hcond : (row.candidate.electionId == e && row.candidate.isApproved) = true := by
      rw [Bool.and_eq_true]
      exact ⟨beq_iff_eq.mpr he, ha⟩
    rw [if_pos hcond, hu, hp]

/-- C4 counterexample: in `dbTie` the two President candidates are tied at
zero votes and `cTieFirst` was created before `cTieSecond`, yet the tally
lists `cTieSecond` first: the query's `ORDER BY (positions.name,
desc(count))` has no tie-break key, so equal-count rows surface in
storage order, not creation order. -/
theorem getElectionResults_tie_not_creation_order :
    cTieFirst.createdAt < cTieSecond.createdAt ∧
    (getElectionResults dbTie "e1").map (fun r => (r.candidate.id, r.voteCount)) =
      [("cB", 0), ("cA", 0)] := by
  constructor
  · decide
  · have hrows : resultRows dbTie "e1" =
        [⟨cTieSecond, uCara, pPresident, 0⟩, ⟨cTieFirst, uBob, pPresident, 0⟩] := by
      decide
    have hcond : resultOrder ⟨cTieSecond, uCara, pPresident, 0⟩
        ⟨cTieFirst, uBob, pPresident, 0⟩ := Or.inr ⟨rfl, by decide⟩
    have hsort : getElectionResults dbTie "e1" =
        [⟨cTieSecond, uCara, pPresident, 0⟩, ⟨cTieFirst, uBob, pPresident, 0⟩] := by
      unfold getElectionResults
      rw [hrows]
      simp only [List.insertionSort, List.orderedInsert]
      rw [if_pos hcond]
    rw [hsort]
    decide

/-- C4 amended: the tally for an election is a permutation of the grouped
candidate/count join rows, sorted by ascending position name and, within
equal position names, by descending vote count (`resultOrder`); rows tied
on both keys are in no specified order. -/
theorem getElectionResults_sorted (db : DB) (e : String) :
    List.Sorted resultOrder (getElectionResults db e) ∧
    (getElectionResults db e).Perm (resultRows db e) :=
  ⟨List.sorted_insertionSort resultOrder (resultRows db e),
   getElectionResults_perm db e⟩

/-- C5: the tally has left-inclusion semantics: every candidate of the
election whose joined user and position rows exist appears in the output
with `voteCount` equal to its stored-ballot count — in particular with
`voteCount = 0` when no ballot names it — and conversely every output row
is driven by a registered candidate of the election. -/
theorem getElectionResults_left_inclusion (db : DB) (e : String) :
    (∀ c ∈ db.candidates, c.electionId = e →
      ∀ u, getUser db c.userId = some u →
      ∀ p, findPosition db c.positionId = some p →
      ∃ r ∈ getElectionResults db e, r.candidate = c ∧
        r.voteCount = db.votes.countP (fun v => v.candidateId == c.id)) ∧
    (∀ r ∈ getElectionResults db e, r.candidate ∈ db.candidates ∧
      r.candidate.electionId = e ∧
      r.voteCount = db.votes.countP (fun v => v.candidateId == r.candidate.id)) := by
  constructor
  · intro c hc he u hu p hp
    refine ⟨⟨c, u, p, db.votes.countP (fun v => v.candidateId == c.id)⟩, ?_, rfl, rfl⟩
    rw [(getElectionResults_perm db e).mem_iff]
    exact (mem_resultRows db e _).mpr ⟨hc, he, hu, hp, rfl⟩
  · intro r hr
    obtain ⟨h1, h2, _, _, h5⟩ :=
      (mem_resultRows db e r).mp ((getElectionResults_perm db e).mem_iff.mp hr)
    exact ⟨h1, h2, h5⟩

/-- Witness for C5: in `dbFix` no ballots are stored, and the approved
President candidate still appears in the tally with `voteCount = 0`. -/
theorem getElectionResults_left_inclusion_witness :
    ∃ r ∈ getElectionResults dbFix "e1", r.candidate = cPresBob ∧
      r.voteCount = dbFix.votes.countP (fun v => v.candidateId == cPresBob.id) :=
  (getElectionResults_left_inclusion dbFix "e1").1 cPresBob (by decide) rfl
    uBob (by decide) pPresident (by decide)

/-- C8: the candidate-roster query behind `GET /elections/:id/candidates`
returns exactly the approved candidates of the requested election: every
output row is a registered candidate of that election with approval flag
true, and conversely every approved candidate of the election whose user
and position rows resolve appears in the output. -/
theorem getCandidatesByElection_approved_only (db : DB) (e : String) :
    (∀ row ∈ getCandidatesByElection db e,
      row.candidate ∈ db.candidates ∧ row.candidate.electionId = e ∧
      row.candidate.isApproved = true) ∧
    (∀ c ∈ db.candidates, c.electionId = e → c.isApproved = true →
      ∀ u, getUser db c.userId = some u →
      ∀ p, findPosition db c.positionId = some p →
      CandidateRow.mk c u p ∈ getCandidatesByElection db e) := by
  constructor
  · intro row hrow
    obtain ⟨h1, h2, h3, _, _⟩ := (mem_getCandidatesByElection db e row).mp hrow
    exact ⟨h1, h2, h3⟩
  · intro c hc he ha u hu p hp
    exact (mem_getCandidatesByElection db e ⟨c, u, p⟩).mpr ⟨hc, he, ha, hu, hp⟩

/-- Witness for C8: the approved President candidate of `dbFix` appears in
the roster of election `e1`, joined with its user and position. -/
theorem getCandidatesByElection_approved_only_witness :
    CandidateRow.mk cPresBob uBob pPresident ∈ getCandidatesByElection dbFix "e1" :=
  (getCandidatesByElection_approved_only dbFix "e1").2 cPresBob (by decide) rfl rfl
    uBob (by decide) pPresident (by decide)

/-- C9 (implicit): the tally applies no approval filter, unlike the
voter-facing roster: an unapproved candidate of the election (whose user
and position rows resolve) appears in `getElectionResults` but in no row
of `getCandidatesByElection`. -/
theorem getElectionResults_ignores_approval (db : DB) (e : String) (c : Candidate)
    (hc : c ∈ db.candidates) (he : c.electionId = e) (hna : c.isApproved = false)
    (u : User) (hu : getUser db c.userId = some u)
    (p : Position) (hp : findPosition db c.positionId = some p) :
    (∃ r ∈ getElectionResults db e, r.candidate = c) ∧
    ∀ row ∈ getCandidatesByElection db e, row.candidate ≠ c := by
  constructor
  · refine ⟨⟨c, u, p, db.votes.countP (fun v => v.candidateId == c.id)⟩, ?_, rfl⟩
    rw [(getElectionResults_perm db e).mem_iff]
    exact (mem_resultRows db e _).mpr ⟨hc, he, hu, hp, rfl⟩
  · intro row hrow hcon
    have h3 := ((mem_getCandidatesByElection db e row).mp hrow).2.2.1
    rw [hcon, hna] at h3
    exact Bool.false_ne_true h3

/-- Witness for C9: the unapproved President candidate `cPresCara` of
`dbFix` is counted by the tally of `e1` yet absent from the roster. -/
theorem getElectionResults_ignores_approval_witness :
    (∃ r ∈ getElectionResults dbFix "e1", r.candidate = cPresCara) ∧
    ∀ row ∈ getCandidatesByElection dbFix "e1", row.candidate ≠ cPresCara :=
  getElectionResults_ignores_approval dbFix "e1" cPresCara (by decide) rfl rfl
    uCara (by decide) pPresident (by decide)

/-- Characterization of the active-elections join: an (election, club)
pair is produced exactly for each election with `is_active = true` and
`end_date > now()` whose club row resolves — `start_date` plays no part. -/
lemma mem_activeElectionPairs (db : DB) (now : Int) (e : Election) (c : Club) :
    (e, c) ∈ activeElectionPairs db now ↔
      e ∈ db.elections ∧ e.isActive = true ∧ now < e.endDate ∧
        findClub db e.clubId = some c := by
  unfold activeElectionPairs
  rw [List.mem_filterMap]
  constructor
  · rintro ⟨e0, he0, hf⟩
    by_cases hcond : (e0.isActive && decide (now < e0.endDate)) = true
    · rw [if_pos hcond] at hf
      rw [Bool.and_eq_true] at hcond
      obtain ⟨h1, h2⟩ := hcond
      cases hc : findClub db e0.clubId with
      | none => rw [hc] at hf; exact absurd hf (by simp)
      | some c0 =>
        rw [hc] at hf
        have hpair := Option.some.inj hf
        injection hpair with ha hb
        subst ha; subst hb
        exact ⟨he0, h1, of_decide_eq_true h2, hc⟩
    · rw [if_neg hcond] at hf
      exact absurd hf (by simp)
  · rintro ⟨he, h1, h2, hc⟩
    refine ⟨e, he, ?_⟩
    have hcond : (e.isActive && decide (now < e.endDate)) = true := by
      rw [Bool.and_eq_true]
      exact ⟨h1, decide_eq_true h2⟩
    rw [if_pos hcond, hc]

/-- An election passing the activity and end-date filter appears in the
`getActiveElections` output with its club and the club's positions. -/
lemma getActiveElections_mem (db : DB) (now : Int) (e : Election) (c : Club)
    (he : e ∈ db.elections) (ha : e.isActive = true) (hend : now < e.endDate)
    (hc : findClub db e.clubId = some c) :
    ActiveElectionRow.mk e c (getPositionsByClub db c.id) ∈ getActiveElections db now := by
  unfold getActiveElections
  have hmem : (e, c) ∈ List.insertionSort electionOrder (activeElectionPairs db now) := by
    rw [(List.perm_insertionSort electionOrder (activeElectionPairs db now)).mem_iff]
    exact (mem_activeElectionPairs db now e c).mpr ⟨he, ha, hend, hc⟩
  exact List.mem_map_of_mem
    (fun ec => ActiveElectionRow.mk ec.1 ec.2 (getPositionsByClub db ec.2.id)) hmem

/-- C10 (implicit): liveness never consults `startDate`.  An election that
is active and ends after `now` is returned by the active-elections query
even though its `startDate` lies in the future, and a vote submission
against it with a fresh triple (and resolvable foreign keys) is accepted
and appended. -/
theorem liveness_ignores_startDate (db : DB) (now : Int) (e : Election)
    (he : e ∈ db.elections) (ha : e.isActive = true) (hend : now < e.endDate)
    (hstart : now < e.startDate)
    (c : Club) (hc : findClub db e.clubId = some c)
    (userId : String) (b : VoteBody) (hb : b.electionId = e.id)
    (hnv : (hasUserVoted db userId b.electionId b.positionId).1 = false)
    (husr : db.users.any (fun u => u.id == userId) = true)
    (hcand : db.candidates.any (fun cd => cd.id == b.candidateId) = true)
    (hpos : db.positions.any (fun p => p.id == b.positionId) = true) :
    (∃ row ∈ getActiveElections db now, row.election = e) ∧
    submitVote db userId b now = (VoteResult.created (newVote db userId b now),
      { db with votes := db.votes ++ [newVote db userId b now],
                nextVoteId := db.nextVoteId + 1 }) := by
  constructor
  · exact ⟨⟨e, c, getPositionsByClub db c.id⟩,
      getActiveElections_mem db now e c he ha hend hc, rfl⟩
  · have helec : db.elections.any (fun el => el.id == b.electionId) = true :=
      List.any_eq_true.mpr ⟨e, he, beq_iff_eq.mpr hb.symm⟩
    have hfk : fkOk db ⟨userId, b.candidateId, b.electionId, b.positionId⟩ = true := by
      unfold fkOk
      dsimp only
      rw [husr, hcand, helec, hpos]
      rfl
    rcases submitVote_eq db userId b now with ⟨hvt, _⟩ | ⟨_, hfkf, _⟩ | ⟨_, _, heq⟩
    · rw [hnv] at hvt
      exact absurd hvt (by decide)
    · rw [hfk] at hfkf
      exact absurd hfkf (by decide)
    · exact heq

/-- Witness for C10: in `dbFuture` the single election starts only at time
500, yet at time 100 it is listed as active and Alice's vote for its
approved candidate is accepted and recorded. -/
theorem liveness_ignores_startDate_witness :
    (∃ row ∈ getActiveElections dbFuture 100, row.election = eFuture) ∧
    submitVote dbFuture "u1" ⟨"c5", "e3", "p1"⟩ 100 =
      (VoteResult.created (newVote dbFuture "u1" ⟨"c5", "e3", "p1"⟩ 100),
       { dbFuture with
          votes := dbFuture.votes ++ [newVote dbFuture "u1" ⟨"c5", "e3", "p1"⟩ 100],
          nextVoteId := dbFuture.nextVoteId + 1 }) :=
  liveness_ignores_startDate dbFuture 100 eFuture (by decide) rfl (by decide) (by decide)
    clTech (by decide) "u1" ⟨"c5", "e3", "p1"⟩ rfl (by decide) (by decide) (by decide)
    (by decide)

/-- Assigning a key absent from the record appends the binding. -/
lemma recordSet_fresh (r : List (String × Bool)) (k : String) (v : Bool)
    (h : ∀ kv ∈ r, kv.1 ≠ k) : recordSet r k v = r ++ [(k, v)] := by
  have hno : ¬(r.any (fun kv => kv.1 == k) = true) := by
    intro hc
    obtain ⟨kv, hkv, hbeq⟩ := List.any_eq_true.mp hc
    exact h kv hkv (beq_iff_eq.mp hbeq)
  unfold recordSet
  rw [if_neg hno]

/-- Generalized shape of the `userVotes` loop: starting from a record whose
keys avoid the (duplicate-free) position ids, the loop appends one binding
per position in order. -/
lemma buildUserVotes_go (db : DB) (userId electionId : String) :
    ∀ (ps : List Position) (acc : List (String × Bool)),
      (∀ p ∈ ps, ∀ kv ∈ acc, kv.1 ≠ p.id) →
      (ps.map (fun p => p.id)).Nodup →
      ps.foldl (fun a p => recordSet a p.id (hasUserVoted db userId electionId p.id).1) acc =
        acc ++ ps.map (fun p => (p.id, (hasUserVoted db userId electionId p.id).1))
  | [], acc, _, _ => by simp
  | p :: ps, acc, hd, hnd => by
    rw [List.map_cons] at hnd
    have hndcons := List.nodup_cons.mp hnd
    rw [List.foldl_cons]
    rw [recordSet_fresh acc p.id (hasUserVoted db userId electionId p.id).1
      (fun kv hkv => hd p (List.mem_cons_self p ps) kv hkv)]
    rw [buildUserVotes_go db userId electionId ps
      (acc ++ [(p.id, (hasUserVoted db userId electionId p.id).1)])
      (by
        intro q hq kv hkv
        rcases List.mem_append.mp hkv with hkv | hkv
        · exact hd q (List.mem_cons_of_mem p hq) kv hkv
        · obtain rfl := List.mem_singleton.mp hkv
          intro hcon
          apply hndcons.1
          have hmem : q.id ∈ List.map (fun r => r.id) ps :=
            List.mem_map_of_mem (fun r => r.id) hq
          rw [← hcon] at hmem
          exact hmem)
      hndcons.2]
    simp

/-- For duplicate-free position ids the route's `userVotes` record is the
association list pairing each position id with its `hasUserVoted` answer. -/
lemma buildUserVotes_eq (db : DB) (userId electionId : String) (ps : List Position)
    (hnd : (ps.map (fun p => p.id)).Nodup) :
    buildUserVotes db userId electionId ps =
      ps.map (fun p => (p.id, (hasUserVoted db userId electionId p.id).1)) := by
  unfold buildUserVotes
  rw [buildUserVotes_go db userId electionId ps [] (by simp) hnd]
  simp

/-- The client status computation, rephrased over the spec's set `V`
(`votedSubset`): it compares `V.length` with the number of positions. -/
lemma getUserVotingStatus_eq (db : DB) (userId electionId : String) (ps : List Position)
    (hnd : (ps.map (fun p => p.id)).Nodup) :
    getUserVotingStatus ps (buildUserVotes db userId electionId ps) =
      (if (votedSubset db userId electionId ps).length = ps.length then "Completed"
       else if 0 < (votedSubset db userId electionId ps).length then "Partial"
       else "Not Voted") := by
  rw [buildUserVotes_eq db userId electionId ps hnd]
  have hv : ((((ps.map (fun p => (p.id, (hasUserVoted db userId electionId p.id).1))).map
      (fun kv => kv.2)).filter (fun b => b)).length) =
      (votedSubset db userId electionId ps).length := by
    rw [List.map_map, List.filter_map, List.length_map]
    rfl
  unfold getUserVotingStatus
  dsimp only
  rw [hv]
  simp only [beq_iff_eq]

/-- C7: with `P` the positions of the election's club and `V ⊆ P` the
positions already voted (`votedSubset`), the completion status computed by
the client from the route's `userVotes` annotation is `"Completed"` iff
`V = P`, `"Not Voted"` (the code's name for the spec's `NotStarted`) iff
`V = []`, and `"Partial"` otherwise.  Position ids are assumed
duplicate-free (they are primary keys) and the club is assumed to have at
least one position. -/
theorem statusForClub_spec (db : DB) (userId electionId clubId : String)
    (hnd : (db.positions.map (fun p => p.id)).Nodup)
    (hne : getPositionsByClub db clubId ≠ []) :
    (statusForClub db userId electionId clubId = "Completed" ↔
      votedSubset db userId electionId (getPositionsByClub db clubId) =
        getPositionsByClub db clubId) ∧
    (statusForClub db userId electionId clubId = "Not Voted" ↔
      votedSubset db userId electionId (getPositionsByClub db clubId) = []) ∧
    (statusForClub db userId electionId clubId = "Partial" ↔
      (votedSubset db userId electionId (getPositionsByClub db clubId) ≠
          getPositionsByClub db clubId ∧
        votedSubset db userId electionId (getPositionsByClub db clubId) ≠ [])) := by
  have hnd' : ((getPositionsByClub db clubId).map (fun p => p.id)).Nodup :=
    hnd.sublist ((List.filter_sublist db.positions).map (fun p => p.id))
  have hstat : statusForClub db userId electionId clubId =
      (if (votedSubset db userId electionId (getPositionsByClub db clubId)).length =
          (getPositionsByClub db clubId).length then "Completed"
       else if 0 < (votedSubset db userId electionId (getPositionsByClub db clubId)).length
         then "Partial"
       else "Not Voted") :=
    getUserVotingStatus_eq db userId electionId (getPositionsByClub db clubId) hnd'
  have hsub : (votedSubset db userId electionId (getPositionsByClub db clubId)).Sublist
      (getPositionsByClub db clubId) := List.filter_sublist (getPositionsByClub db clubId)
  by_cases h1 : (votedSubset db userId electionId (getPositionsByClub db clubId)).length =
      (getPositionsByClub db clubId).length
  · rw [hstat, if_pos h1]
    refine ⟨⟨fun _ => hsub.eq_of_length h1, fun _ => rfl⟩, ?_, ?_⟩
    · constructor
      · intro hc
        exact absurd hc (by decide)
      · intro hV
        rw [hV] at h1
        exact absurd (List.length_eq_zero.mp h1.symm) hne
    · constructor
      · intro hc
        exact absurd hc (by decide)
      · rintro ⟨hne1, _⟩
        exact absurd (hsub.eq_of_length h1) hne1
  · by_cases h2 : 0 < (votedSubset db userId electionId (getPositionsByClub db clubId)).length
    · rw [hstat, if_neg h1, if_pos h2]
      refine ⟨?_, ?_, ?_⟩
      · constructor
        · intro hc
          exact absurd hc (by decide)
        · intro hVP
          exact absurd (congrArg List.length hVP) h1
      · constructor
        · intro hc
          exact absurd hc (by decide)
        · intro hV
          rw [hV] at h2
          exact absurd h2 (by decide)
      · exact ⟨fun _ => ⟨fun hVP => h1 (congrArg List.length hVP),
          fun hV => by rw [hV] at h2; exact absurd h2 (by decide)⟩, fun _ => rfl⟩
    · have h0 : (votedSubset db userId electionId (getPositionsByClub db clubId)).length = 0 :=
        Nat.eq_zero_of_not_pos h2
      rw [hstat, if_neg h1, if_neg h2]
      refine ⟨?_, ?_, ?_⟩
      · constructor
        · intro hc
          exact absurd hc (by decide)
        · intro hVP
          exact absurd (congrArg List.length hVP) h1
      · exact ⟨fun _ => List.length_eq_zero.mp h0, fun _ => rfl⟩
      · constructor
        · intro hc
          exact absurd hc (by decide)
        · rintro ⟨_, hne2⟩
          exact absurd (List.length_eq_zero.mp h0) hne2

/-- Witness for C7, the spec's completion-transition scenario over the
positions {President, Secretary} of `clTech`: Alice's status is
`"Not Voted"` with no ballots (`dbFix`), `"Partial"` after voting only
President (`dbVotedPres`), and `"Completed"` after voting both
(`dbVotedBoth`). -/
theorem statusForClub_spec_witness :
    statusForClub dbFix "u1" "e1" "cl1" = "Not Voted" ∧
    statusForClub dbVotedPres "u1" "e1" "cl1" = "Partial" ∧
    statusForClub dbVotedBoth "u1" "e1" "cl1" = "Completed" :=
  ⟨(statusForClub_spec dbFix "u1" "e1" "cl1" (by decide) (by decide)).2.1.mpr (by decide),
   (statusForClub_spec dbVotedPres "u1" "e1" "cl1" (by decide) (by decide)).2.2.mpr
     (by decide),
   (statusForClub_spec dbVotedBoth "u1" "e1" "cl1" (by decide) (by decide)).1.mpr
     (by decide)⟩

end VoteEd
